import Mathlib

/-!
Verification of the counterfactual-search pipeline.

This file embeds, as executable Lean definitions, the functions of
src/transformers/utils/gen_xfactuals.py (gen_counterfactual) and the
relevant pieces of examples/pytorch/language-modeling/train_clm_with_xfacts.py
(group_texts, the perplexity computation, and the class loop of _gen_xfacts),
and proves the claimed properties about them.

Tensors are modelled as rectangular lists of rationals (sequence_length rows
of hidden_dimension entries).  The probe, the loss criterion and automatic
differentiation are modelled by two abstract functions: L, mapping the current
tensor to the scalar loss value criterion(probe(z), s_prime), and G, mapping
the current tensor to the gradient of that loss with respect to the tensor
(the effect of loss.backward() on z_prime.grad).  Everything else in
gen_counterfactual - the SGD-with-momentum optimizer over the single variable
z_prime, the step counter, the patience bookkeeping, and the stopping
conditions with their hard-coded constants - is translated line by line.
-/

namespace XFactuals

/-- A hidden-state tensor: a list of rows, each a list of rationals. -/
abbrev Tensor := List (List ℚ)

/-- The shape of a tensor: the list of its row lengths (its length is the
number of rows). -/
def shape (t : Tensor) : List ℕ := t.map List.length

/-- Scalar multiplication of every entry of a tensor. -/
def smul2D (c : ℚ) (a : Tensor) : Tensor := a.map (fun r => r.map (fun x => c * x))

/-- Entrywise combination of two tensors of equal shape. -/
def zipWith2D (f : ℚ → ℚ → ℚ) (a b : Tensor) : Tensor := List.zipWith (List.zipWith f) a b

/-- Entrywise addition. -/
def add2D (a b : Tensor) : Tensor := zipWith2D (fun x y => x + y) a b

/-- Entrywise subtraction. -/
def sub2D (a b : Tensor) : Tensor := zipWith2D (fun x y => x - y) a b

/-- One torch.optim.SGD update (momentum mom, dampening 0, nesterov off,
no weight decay) on the single optimized variable z with gradient g.
The momentum buffer is none before the first step and is initialized to the
gradient on the first step; afterwards buf := mom * buf + g and
z := z - lr * buf.  Returns the updated tensor and the new buffer. -/
def sgdStep (lr mom : ℚ) (z g : Tensor) (buf : Option Tensor) : Tensor × Tensor :=
  match buf with
  | none => (sub2D z (smul2D lr g), g)
  | some b =>
      let b2 := add2D (smul2D mom b) g
      (sub2D z (smul2D lr b2), b2)

/-- The mutable state of the while loop in gen_counterfactual: the tensor
z_prime, the optimizer momentum buffer, and the variables num_steps,
curr_patience, min_loss and loss of the Python function. -/
structure SearchState where
  z : Tensor
  buf : Option Tensor
  num_steps : ℕ
  curr_patience : ℕ
  min_loss : ℚ
  loss : ℚ
deriving DecidableEq

/-- One iteration of the while-loop body of gen_counterfactual:
optimizer.zero_grad(); outputs = probe(z_prime); loss = criterion(outputs,
s_prime); loss.backward(); optimizer.step(); num_steps += 1;
curr_patience += 1; if loss < min_loss - 0.01 then min_loss = loss and
curr_patience = 0.  L gives the loss at the current tensor and G its
gradient. -/
def searchStep (lr mom : ℚ) (L : Tensor → ℚ) (G : Tensor → Tensor)
    (s : SearchState) : SearchState :=
  let loss := L s.z
  let p := sgdStep lr mom s.z (G s.z) s.buf
  if loss < s.min_loss - 1/100 then
    ⟨p.1, some p.2, s.num_steps + 1, 0, loss, loss⟩
  else
    ⟨p.1, some p.2, s.num_steps + 1, s.curr_patience + 1, s.min_loss, loss⟩

/-- The while loop of gen_counterfactual, fuelled: while num_steps <
maxSteps and loss > stoppingLoss, run one searchStep, and break out
immediately afterwards when curr_patience > maxPatience.  The fuel argument
is set to maxSteps by the caller, which makes it extensionally the unbounded
while loop because num_steps increases by one each iteration. -/
def genLoop (lr mom stoppingLoss : ℚ) (maxSteps maxPatience : ℕ)
    (L : Tensor → ℚ) (G : Tensor → Tensor) : ℕ → SearchState → SearchState
  | 0, s => s
  | f + 1, s =>
      if s.num_steps < maxSteps ∧ stoppingLoss < s.loss then
        let s2 := searchStep lr mom L G s
        if maxPatience < s2.curr_patience then s2
        else genLoop lr mom stoppingLoss maxSteps maxPatience L G f s2
      else s

/-- The initial loop state of gen_counterfactual: num_steps = 0,
curr_patience = 0, loss = 100 and min_loss = loss, optimizer buffer empty. -/
def searchInit (z : Tensor) : SearchState := ⟨z, none, 0, 0, 100, 100⟩

/-- gen_counterfactual with the loop constants exposed as parameters. -/
def gen_counterfactual_cfg (lr mom stoppingLoss : ℚ) (maxSteps maxPatience : ℕ)
    (L : Tensor → ℚ) (G : Tensor → Tensor) (z : Tensor) : SearchState :=
  genLoop lr mom stoppingLoss maxSteps maxPatience L G maxSteps (searchInit z)

/-- gen_counterfactual as written in the source: lr = 0.01, momentum = 0.9,
stopping_loss = 0.001, max_num_steps = 100, max_patience = 10000.  The
returned SearchState carries the returned tensor z_prime in its z field
together with the final values of the loop variables. -/
def gen_counterfactual (L : Tensor → ℚ) (G : Tensor → Tensor) (z : Tensor) : SearchState :=
  gen_counterfactual_cfg (1/100) (9/10) (1/1000) 100 10000 L G z

/-- The unstopped trajectory of loop states: traj L G z k is the state after
k iterations of the loop body, ignoring the stopping conditions.  While the
loop is running, its states coincide with this trajectory. -/
def traj (L : Tensor → ℚ) (G : Tensor → Tensor) (z : Tensor) (k : ℕ) : SearchState :=
  (searchStep (1/100) (9/10) L G)^[k] (searchInit z)

/-- Memory-level view of gen_counterfactual.  The Python function receives a
reference to a tensor object in a heap of tensors, binds z_prime = z (an
alias, no copy), mutates that one object in place through the optimizer
steps, and returns z_prime, i.e. the very address it was given.  The heap is
modelled as a map from addresses to tensors; the call returns the returned
address together with the heap after the call. -/
def gen_counterfactual_mem (L : Tensor → ℚ) (G : Tensor → Tensor)
    (heap : ℕ → Tensor) (a : ℕ) : ℕ × (ℕ → Tensor) :=
  (a, Function.update heap a (gen_counterfactual L G (heap a)).z)

/-- A probe as seen by gen_counterfactual: its parameter values together
with its training-mode flag (probe.eval() clears the flag). -/
structure Probe (P : Type) where
  params : P
  training : Bool

/-- gen_counterfactual with the probe state made explicit.  The loss and
gradient functions now depend on the probe parameters; the call sets the
probe to evaluation mode (probe.eval()) and runs the search.  The optimizer
is constructed over the single variable z_prime, so the only state the loop
writes is the tensor and the loop-local variables; the returned probe is the
probe after the call. -/
def gen_counterfactual_probe {P : Type} (L : P → Tensor → ℚ) (G : P → Tensor → Tensor)
    (pr : Probe P) (z : Tensor) : Probe P × SearchState :=
  let prEval : Probe P := { pr with training := false }
  (prEval, gen_counterfactual (L prEval.params) (G prEval.params) z)

/-- The (representation, label) pairs one class contributes in _gen_xfacts:
shifted_z = squeezed_z[:-1, :] zipped row-wise against shifted_labels =
input_ids[1:], exactly as the two parallel caches are later vstacked into a
row-aligned TensorDataset. -/
def xfactPairs (ids : List ℤ) (zp : Tensor) : List (List ℚ × ℤ) :=
  List.zip zp.dropLast (ids.drop 1)

/-- The inner loop for targ_s in range(3) of _gen_xfacts, for one batch.
The same hidden-state tensor is handed to gen_counterfactual for each class
in turn; since that call mutates its argument in place and returns it, the
next class starts from the tensor the previous class just perturbed.
completed is the running completed_steps counter; after each class it is
incremented and the loop breaks once it reaches maxTrain (the
args.max_train_steps bound), after having appended that class's pairs.
Returns the final tensor, the final counter and the per-class pair lists. -/
def genXfactsClasses (Ls : ℕ → Tensor → ℚ) (Gs : ℕ → Tensor → Tensor)
    (ids : List ℤ) (maxTrain : ℕ) :
    List ℕ → Tensor → ℕ → Tensor × ℕ × List (List (List ℚ × ℤ))
  | [], z, completed => (z, completed, [])
  | c :: cs, z, completed =>
      let zc := (gen_counterfactual (Ls c) (Gs c) z).z
      let pairs := xfactPairs ids zc
      if maxTrain ≤ completed + 1 then (zc, completed + 1, [pairs])
      else
        let rest := genXfactsClasses Ls Gs ids maxTrain cs zc (completed + 1)
        (rest.1, rest.2.1, pairs :: rest.2.2)

/-- One batch of _gen_xfacts: the hidden states extracted from the model are
run through the class loop for the three target classes 0, 1, 2 starting
with completed_steps = 0, and the per-class (representation, label) pair
lists are collected. -/
def gen_xfacts_example (Ls : ℕ → Tensor → ℚ) (Gs : ℕ → Tensor → Tensor)
    (ids : List ℤ) (hidden : Tensor) (maxTrain : ℕ) : List (List (List ℚ × ℤ)) :=
  (genXfactsClasses Ls Gs ids maxTrain [0, 1, 2] hidden 0).2.2

/-- group_texts from train_clm_with_xfacts.py, for the input_ids column:
concatenate all sequences; if the total length is at least block_size,
truncate the total to a multiple of block_size; then slice the concatenated
list at offsets 0, block_size, 2*block_size, ... below the (possibly
truncated) total, each slice taking up to block_size tokens.  The labels
column is a copy of the input_ids column. -/
def group_texts (block_size : ℕ) (input_ids : List (List ℤ)) :
    List (List ℤ) × List (List ℤ) :=
  let concatenated := input_ids.flatten
  let total0 := concatenated.length
  let total := if block_size ≤ total0 then total0 / block_size * block_size else total0
  let chunks := (List.range ((total + block_size - 1) / block_size)).map
    (fun j => (concatenated.drop (j * block_size)).take block_size)
  (chunks, chunks)

/-- The error math.exp can raise: an OverflowError or any other exception. -/
inductive MathError
  | overflow
  | other
deriving DecidableEq

/-- The perplexity computation of train_with_prepped_dataset: perplexity =
math.exp(mean loss) inside a try block whose except OverflowError clause
sets perplexity to float("inf"); any other exception propagates.  expFn
models math.exp, a fallible scalar function; the reported perplexity is a
rational extended with a top element standing for positive infinity. -/
def eval_perplexity (expFn : ℚ → Except MathError ℚ) (meanLoss : ℚ) :
    Except MathError (WithTop ℚ) :=
  match expFn meanLoss with
  | Except.ok v => Except.ok (v : WithTop ℚ)
  | Except.error MathError.overflow => Except.ok ⊤
  | Except.error MathError.other => Except.error MathError.other

/-! Basic lemmas about one loop iteration and the trajectory. -/

theorem searchStep_num_steps (lr mom : ℚ) (L : Tensor → ℚ) (G : Tensor → Tensor)
    (s : SearchState) : (searchStep lr mom L G s).num_steps = s.num_steps + 1 := by
  simp only [searchStep]
  split <;> rfl

theorem searchStep_patience_le (lr mom : ℚ) (L : Tensor → ℚ) (G : Tensor → Tensor)
    (s : SearchState) : (searchStep lr mom L G s).curr_patience ≤ s.curr_patience + 1 := by
  simp only [searchStep]
  split <;> simp

theorem searchStep_loss (lr mom : ℚ) (L : Tensor → ℚ) (G : Tensor → Tensor)
    (s : SearchState) : (searchStep lr mom L G s).loss = L s.z := by
  simp only [searchStep]
  split <;> rfl

theorem searchStep_z (lr mom : ℚ) (L : Tensor → ℚ) (G : Tensor → Tensor)
    (s : SearchState) :
    (searchStep lr mom L G s).z = (sgdStep lr mom s.z (G s.z) s.buf).1 := by
  simp only [searchStep]
  split <;> rfl

theorem searchStep_buf (lr mom : ℚ) (L : Tensor → ℚ) (G : Tensor → Tensor)
    (s : SearchState) :
    (searchStep lr mom L G s).buf = some (sgdStep lr mom s.z (G s.z) s.buf).2 := by
  simp only [searchStep]
  split <;> rfl

theorem traj_zero (L : Tensor → ℚ) (G : Tensor → Tensor) (z : Tensor) :
    traj L G z 0 = searchInit z := rfl

theorem traj_succ (L : Tensor → ℚ) (G : Tensor → Tensor) (z : Tensor) (k : ℕ) :
    traj L G z (k + 1) = searchStep (1/100) (9/10) L G (traj L G z k) :=
  Function.iterate_succ_apply' (searchStep (1/100) (9/10) L G) k (searchInit z)

theorem traj_num_steps (L : Tensor → ℚ) (G : Tensor → Tensor) (z : Tensor) (k : ℕ) :
    (traj L G z k).num_steps = k := by
  induction k with
  | zero => rfl
  | succ k ih => rw [traj_succ, searchStep_num_steps, ih]

theorem traj_patience_le (L : Tensor → ℚ) (G : Tensor → Tensor) (z : Tensor) (k : ℕ) :
    (traj L G z k).curr_patience ≤ k := by
  induction k with
  | zero => exact le_refl 0
  | succ k ih =>
      rw [traj_succ]
      exact le_trans (searchStep_patience_le _ _ _ _ _) (Nat.succ_le_succ ih)

theorem traj_loss_succ (L : Tensor → ℚ) (G : Tensor → Tensor) (z : Tensor) (k : ℕ) :
    (traj L G z (k + 1)).loss = L (traj L G z k).z := by
  rw [traj_succ, searchStep_loss]

theorem genLoop_zero (lr mom stoppingLoss : ℚ) (maxSteps maxPatience : ℕ)
    (L : Tensor → ℚ) (G : Tensor → Tensor) (s : SearchState) :
    genLoop lr mom stoppingLoss maxSteps maxPatience L G 0 s = s := rfl

theorem genLoop_succ (lr mom stoppingLoss : ℚ) (maxSteps maxPatience : ℕ)
    (L : Tensor → ℚ) (G : Tensor → Tensor) (f : ℕ) (s : SearchState) :
    genLoop lr mom stoppingLoss maxSteps maxPatience L G (f + 1) s =
      if s.num_steps < maxSteps ∧ stoppingLoss < s.loss then
        if maxPatience < (searchStep lr mom L G s).curr_patience then
          searchStep lr mom L G s
        else genLoop lr mom stoppingLoss maxSteps maxPatience L G f
          (searchStep lr mom L G s)
      else s := rfl

/-- Master lemma for the default configuration: starting from the k-th
trajectory state with fuel 100 - k, the loop lands on some trajectory state
m with k ≤ m ≤ 100; the stopping-loss guard held at every state strictly
before m, and if the loop stopped before exhausting its 100 steps then the
loss of the final state is at or below the stopping loss.  The patience
break never fires because curr_patience stays below num_steps + 1 ≤ 100,
far below max_patience = 10000. -/
theorem genLoop_master (L : Tensor → ℚ) (G : Tensor → Tensor) (z : Tensor) :
    ∀ f k, k + f = 100 →
      ∃ m, k ≤ m ∧ m ≤ 100 ∧
        genLoop (1/100) (9/10) (1/1000) 100 10000 L G f (traj L G z k) = traj L G z m ∧
        (∀ j, k ≤ j → j < m → 1/1000 < (traj L G z j).loss) ∧
        (m < 100 → (traj L G z m).loss ≤ 1/1000) := by
  intro f
  induction f with
  | zero =>
      intro k hk
      have hk100 : k = 100 := by omega
      refine ⟨k, le_refl k, by omega, rfl, ?_, ?_⟩
      · intro j h1 h2; omega
      · intro h; omega
  | succ f ih =>
      intro k hk
      have hklt : k < 100 := by omega
      by_cases hc : (1/1000 : ℚ) < (traj L G z k).loss
      · have hguard : (traj L G z k).num_steps < 100 ∧ (1/1000 : ℚ) < (traj L G z k).loss := by
          constructor
          · rw [traj_num_steps]; exact hklt
          · exact hc
        have hpat : ¬ 10000 < (searchStep (1/100) (9/10) L G (traj L G z k)).curr_patience := by
          have h1 := searchStep_patience_le (1/100) (9/10) L G (traj L G z k)
          have h2 := traj_patience_le L G z k
          omega
        obtain ⟨m, hm1, hm2, hm3, hm4, hm5⟩ := ih (k + 1) (by omega)
        refine ⟨m, by omega, hm2, ?_, ?_, hm5⟩
        · rw [genLoop_succ, if_pos hguard, if_neg hpat, ← traj_succ]
          exact hm3
        · intro j hj1 hj2
          rcases Nat.eq_or_lt_of_le hj1 with h | h
          · rw [← h]; exact hc
          · exact hm4 j h hj2
      · refine ⟨k, le_refl k, by omega, ?_, ?_, ?_⟩
        · rw [genLoop_succ, if_neg]
          intro h
          exact hc h.2
        · intro j h1 h2; omega
        · intro _
          exact le_of_not_lt hc

/-- The search result is a trajectory state, characterized by the master
lemma with full fuel from the initial state. -/
theorem gen_counterfactual_eq_traj (L : Tensor → ℚ) (G : Tensor → Tensor) (z : Tensor) :
    ∃ m, m ≤ 100 ∧ gen_counterfactual L G z = traj L G z m ∧
      (∀ j, j < m → 1/1000 < (traj L G z j).loss) ∧
      (m < 100 → (traj L G z m).loss ≤ 1/1000) := by
  obtain ⟨m, _, hm2, hm3, hm4, hm5⟩ := genLoop_master L G z 100 0 rfl
  exact ⟨m, hm2, hm3, fun j hj => hm4 j (Nat.zero_le j) hj, hm5⟩

/-- C1: for every loss function, gradient function and input tensor,
gen_counterfactual takes at most max_num_steps = 100 optimization steps; it
takes strictly fewer than 100 if and only if the loss falls at or below the
stopping loss 0.001 strictly before the step cap; and its result is the
num_steps-fold iterate of the loop body, i.e. each step taken is exactly one
probe forward pass, loss, backward pass and momentum-SGD optimizer step. -/
theorem C1_bounded_iteration (L : Tensor → ℚ) (G : Tensor → Tensor) (z : Tensor) :
    (gen_counterfactual L G z).num_steps ≤ 100 ∧
    gen_counterfactual L G z = traj L G z (gen_counterfactual L G z).num_steps ∧
    ((gen_counterfactual L G z).num_steps < 100 ↔
      ∃ k, k < 99 ∧ L (traj L G z k).z ≤ 1/1000) := by
  obtain ⟨m, hm2, hm3, hm4, hm5⟩ := gen_counterfactual_eq_traj L G z
  have hns : (gen_counterfactual L G z).num_steps = m := by rw [hm3, traj_num_steps]
  refine ⟨by omega, by rw [hns]; exact hm3, ?_⟩
  constructor
  · intro hlt
    rw [hns] at hlt
    have hml := hm5 hlt
    match m, hlt, hml with
    | 0, _, hml =>
        have h0 : (traj L G z 0).loss = 100 := rfl
        rw [h0] at hml
        norm_num at hml
    | k + 1, hlt, hml =>
        rw [traj_loss_succ] at hml
        exact ⟨k, by omega, hml⟩
  · rintro ⟨k, hk, hkle⟩
    rw [hns]
    by_contra h
    have hm100 : m = 100 := by omega
    have := hm4 (k + 1) (by omega)
    rw [traj_loss_succ] at this
    linarith

/-- C2 counterexample: the claim as stated is false on the code.  In the
concrete run below against a probe with constant loss 99.99, the first
optimization step improves on the running minimum loss (100) by exactly
0.01; by the claim such a step must reset the patience counter to zero and
update the running minimum to 99.99, but the code tests
loss < min_loss - 0.01 strictly, so the counter is incremented to 1 and the
minimum stays 100. -/
theorem C2_counterexample :
    (searchInit [[0]]).min_loss - (fun _ : Tensor => (9999/100 : ℚ)) [[0]] = 1/100 ∧
    (traj (fun _ => 9999/100) (fun _ => [[0]]) [[0]] 1).curr_patience = 1 ∧
    (traj (fun _ => 9999/100) (fun _ => [[0]]) [[0]] 1).min_loss = 100 := by
  have h1 : traj (fun _ => 9999/100) (fun _ => [[0]]) [[0]] 1 =
      searchStep (1/100) (9/10) (fun _ => 9999/100) (fun _ => [[0]]) (searchInit [[0]]) := rfl
  have hcond : ¬ ((fun _ : Tensor => (9999/100 : ℚ)) (searchInit [[0]]).z <
      (searchInit [[0]]).min_loss - 1/100) := by
    norm_num [searchInit]
  refine ⟨by norm_num [searchInit], ?_, ?_⟩
  · rw [h1]
    simp only [searchStep]
    rw [if_neg hcond]
    rfl
  · rw [h1]
    simp only [searchStep]
    rw [if_neg hcond]
    rfl

/-- C2 (amended): a step whose loss does not improve on the running minimum
by more than 0.01 increments the patience counter and leaves the minimum
unchanged; a step that improves by more than 0.01 resets the counter to zero
and updates the minimum; whenever the guard holds and a step pushes the
patience counter strictly above max_patience, the loop terminates
immediately after that step; and against a probe whose loss never improves,
the search at the hard-coded configuration runs for min max_patience
max_num_steps = min 10000 100 = 100 steps. -/
theorem C2_patience_semantics (lr mom stoppingLoss : ℚ) (maxSteps maxPatience : ℕ)
    (L : Tensor → ℚ) (G : Tensor → Tensor) (s : SearchState) (z : Tensor) :
    (L s.z < s.min_loss - 1/100 →
      (searchStep lr mom L G s).curr_patience = 0 ∧
      (searchStep lr mom L G s).min_loss = L s.z) ∧
    (¬ L s.z < s.min_loss - 1/100 →
      (searchStep lr mom L G s).curr_patience = s.curr_patience + 1 ∧
      (searchStep lr mom L G s).min_loss = s.min_loss) ∧
    (∀ f, s.num_steps < maxSteps → stoppingLoss < s.loss →
      maxPatience < (searchStep lr mom L G s).curr_patience →
      genLoop lr mom stoppingLoss maxSteps maxPatience L G (f + 1) s =
        searchStep lr mom L G s) ∧
    ((∀ w, ¬ L w < 100 - 1/100 ∧ 1/1000 < L w) →
      (gen_counterfactual L G z).num_steps = min 10000 100) := by
  refine ⟨?_, ?_, ?_, ?_⟩
  · intro h
    simp only [searchStep]
    rw [if_pos h]
    exact ⟨rfl, rfl⟩
  · intro h
    simp only [searchStep]
    rw [if_neg h]
    exact ⟨rfl, rfl⟩
  · intro f h1 h2 h3
    rw [genLoop_succ, if_pos ⟨h1, h2⟩, if_pos h3]
  · intro hnever
    obtain ⟨m, hm2, hm3, hm4, hm5⟩ := gen_counterfactual_eq_traj L G z
    have hns : (gen_counterfactual L G z).num_steps = m := by rw [hm3, traj_num_steps]
    have hm100 : m = 100 := by
      by_contra hne
      have hlt : m < 100 := by omega
      have hml := hm5 hlt
      match m, hml with
      | 0, hml =>
          have h0 : (traj L G z 0).loss = 100 := rfl
          rw [h0] at hml
          norm_num at hml
      | k + 1, hml =>
          rw [traj_loss_succ] at hml
          have := (hnever (traj L G z k).z).2
          linarith
    rw [hns, hm100]
    omega

/-- C2 witness: the four parts of the amended patience claim, each applied
at a concrete configuration, state and run. -/
theorem C2_patience_semantics_witness :
    ((searchStep 1 1 (fun _ => 0) (fun _ => [[0]]) (searchInit [[0]])).curr_patience = 0 ∧
      (searchStep 1 1 (fun _ => 0) (fun _ => [[0]]) (searchInit [[0]])).min_loss =
        (fun _ : Tensor => (0 : ℚ)) (searchInit [[0]]).z) ∧
    ((searchStep 1 1 (fun _ => 100) (fun _ => [[0]]) (searchInit [[0]])).curr_patience =
        (searchInit [[0]]).curr_patience + 1 ∧
      (searchStep 1 1 (fun _ => 100) (fun _ => [[0]]) (searchInit [[0]])).min_loss =
        (searchInit [[0]]).min_loss) ∧
    genLoop 1 1 0 5 0 (fun _ => 100) (fun _ => [[0]]) (0 + 1) (searchInit [[0]]) =
      searchStep 1 1 (fun _ => 100) (fun _ => [[0]]) (searchInit [[0]]) ∧
    (gen_counterfactual (fun _ => 100) (fun _ => [[0]]) [[0]]).num_steps = min 10000 100 := by
  have hno : ¬ ((fun _ : Tensor => (100 : ℚ)) (searchInit [[0]]).z <
      (searchInit [[0]]).min_loss - 1/100) := by
    norm_num [searchInit]
  have hpat : (0 : ℕ) < (searchStep 1 1 (fun _ => 100) (fun _ => [[0]]) (searchInit
      [[0]])).curr_patience := by
    simp only [searchStep]
    rw [if_neg hno]
    norm_num
  exact ⟨(C2_patience_semantics 1 1 0 5 0 (fun _ => 0) (fun _ => [[0]])
      (searchInit [[0]]) [[0]]).1 (by norm_num [searchInit]),
    (C2_patience_semantics 1 1 0 5 0 (fun _ => 100) (fun _ => [[0]])
      (searchInit [[0]]) [[0]]).2.1 hno,
    (C2_patience_semantics 1 1 0 5 0 (fun _ => 100) (fun _ => [[0]])
      (searchInit [[0]]) [[0]]).2.2.1 0 (by norm_num [searchInit])
      (by norm_num [searchInit]) hpat,
    (C2_patience_semantics 1 1 0 5 0 (fun _ => 100) (fun _ => [[0]])
      (searchInit [[0]]) [[0]]).2.2.2 (fun w => by norm_num)⟩

/-- C3: if the probe already classifies the unperturbed input at or below
the stopping loss, the search terminates after exactly one loop iteration,
and the returned tensor is the input after that single optimizer step - no
further updates are applied. -/
theorem C3_early_success (L : Tensor → ℚ) (G : Tensor → Tensor) (z : Tensor)
    (h : L z ≤ 1/1000) :
    (gen_counterfactual L G z).num_steps = 1 ∧
    (gen_counterfactual L G z).z = (sgdStep (1/100) (9/10) z (G z) none).1 := by
  obtain ⟨m, hm2, hm3, hm4, hm5⟩ := gen_counterfactual_eq_traj L G z
  have hL0 : L (traj L G z 0).z = L z := rfl
  have hm_le1 : m ≤ 1 := by
    by_contra hgt
    have h1 := hm4 1 (by omega)
    rw [traj_loss_succ, hL0] at h1
    linarith
  have hm_ne0 : m ≠ 0 := by
    intro h0
    rw [h0] at hm5
    have hml := hm5 (by norm_num)
    have h0l : (traj L G z 0).loss = 100 := rfl
    rw [h0l] at hml
    norm_num at hml
  have hm1 : m = 1 := by omega
  rw [hm1] at hm3
  constructor
  · rw [hm3, traj_num_steps]
  · rw [hm3, traj_succ, searchStep_z, traj_zero]
    rfl

/-- C3 witness: a probe with constant loss 0 on a concrete one-row tensor
already meets the stopping loss, and the search stops after one step. -/
theorem C3_early_success_witness :
    (gen_counterfactual (fun _ => 0) (fun _ => [[1]]) [[2]]).num_steps = 1 ∧
    (gen_counterfactual (fun _ => 0) (fun _ => [[1]]) [[2]]).z =
      (sgdStep (1/100) (9/10) [[2]] ((fun _ : Tensor => [[(1 : ℚ)]]) [[2]]) none).1 :=
  C3_early_success (fun _ => 0) (fun _ => [[1]]) [[2]] (by norm_num)

/-! Shape preservation through the optimizer, needed for C4 and C5. -/

theorem shape_smul2D (c : ℚ) (a : Tensor) : shape (smul2D c a) = shape a := by
  unfold shape smul2D
  rw [List.map_map]
  simp [Function.comp_def]

theorem shape_zipWith2D (f : ℚ → ℚ → ℚ) (a : Tensor) :
    ∀ b : Tensor, shape b = shape a → shape (zipWith2D f a b) = shape a := by
  induction a with
  | nil => intro b h; rfl
  | cons x xs ih =>
      intro b h
      cases b with
      | nil => simp [shape] at h
      | cons y ys =>
          simp only [shape, List.map_cons, List.cons.injEq] at h
          obtain ⟨h1, h2⟩ := h
          simp only [zipWith2D, List.zipWith_cons_cons, shape, List.map_cons, List.cons.injEq]
          constructor
          · rw [List.length_zipWith, h1, Nat.min_self]
          · exact ih ys h2

theorem shape_sub2D (a b : Tensor) (h : shape b = shape a) : shape (sub2D a b) = shape a :=
  shape_zipWith2D _ a b h

theorem shape_add2D (a b : Tensor) (h : shape b = shape a) : shape (add2D a b) = shape a :=
  shape_zipWith2D _ a b h

theorem sgdStep_shape (lr mom : ℚ) (z g : Tensor) (buf : Option Tensor)
    (hg : shape g = shape z) (hb : ∀ b, buf = some b → shape b = shape z) :
    shape (sgdStep lr mom z g buf).1 = shape z ∧
    shape (sgdStep lr mom z g buf).2 = shape z := by
  cases buf with
  | none =>
      simp only [sgdStep]
      exact ⟨shape_sub2D z _ ((shape_smul2D lr g).trans hg), hg⟩
  | some b =>
      have hbz := hb b rfl
      simp only [sgdStep]
      have hb2 : shape (add2D (smul2D mom b) g) = shape z := by
        rw [shape_add2D (smul2D mom b) g, shape_smul2D]
        · exact hbz
        · rw [shape_smul2D]; exact hg.trans hbz.symm
      exact ⟨shape_sub2D z _ ((shape_smul2D lr _).trans hb2), hb2⟩

theorem traj_shape (L : Tensor → ℚ) (G : Tensor → Tensor) (z : Tensor)
    (hG : ∀ w, shape (G w) = shape w) (k : ℕ) :
    shape (traj L G z k).z = shape z ∧
    ∀ b, (traj L G z k).buf = some b → shape b = shape z := by
  induction k with
  | zero =>
      refine ⟨rfl, fun b hb => ?_⟩
      simp [traj, searchInit] at hb
  | succ k ih =>
      have hz := ih.1
      have hg : shape (G (traj L G z k).z) = shape (traj L G z k).z := hG _
      have hb : ∀ b, (traj L G z k).buf = some b → shape b = shape (traj L G z k).z :=
        fun b hbb => (ih.2 b hbb).trans hz.symm
      obtain ⟨h1, h2⟩ := sgdStep_shape (1/100) (9/10) _ _ _ hg hb
      constructor
      · rw [traj_succ, searchStep_z]
        exact h1.trans hz
      · intro b hbb
        rw [traj_succ, searchStep_buf] at hbb
        rw [← Option.some.inj hbb]
        exact h2.trans hz

theorem gen_counterfactual_shape (L : Tensor → ℚ) (G : Tensor → Tensor) (z : Tensor)
    (hG : ∀ w, shape (G w) = shape w) :
    shape (gen_counterfactual L G z).z = shape z := by
  obtain ⟨m, _, hm3, _, _⟩ := gen_counterfactual_eq_traj L G z
  rw [hm3]
  exact (traj_shape L G z hG m).1

/-- C4: gen_counterfactual returns the very tensor object it was handed (the
returned address equals the input address - no defensive copy is made), and
the tensor at that address after the call has the same shape as the input
tensor, provided the gradients autograd produces have the shape of the
tensor they differentiate. -/
theorem C4_shape_invariance_in_place (L : Tensor → ℚ) (G : Tensor → Tensor)
    (heap : ℕ → Tensor) (a : ℕ) (hG : ∀ w, shape (G w) = shape w) :
    (gen_counterfactual_mem L G heap a).1 = a ∧
    shape ((gen_counterfactual_mem L G heap a).2 a) = shape (heap a) := by
  refine ⟨rfl, ?_⟩
  show shape (Function.update heap a (gen_counterfactual L G (heap a)).z a) = shape (heap a)
  rw [Function.update_same]
  exact gen_counterfactual_shape L G (heap a) hG

/-- C4 witness: with identity gradients, a concrete one-address heap holding
a 1-by-2 tensor. -/
theorem C4_shape_invariance_in_place_witness :
    (gen_counterfactual_mem (fun _ => 0) (fun w => w) (fun _ => [[1, 2]]) 0).1 = 0 ∧
    shape ((gen_counterfactual_mem (fun _ => 0) (fun w => w) (fun _ => [[1, 2]]) 0).2 0) =
      shape ((fun _ : ℕ => ([[1, 2]] : Tensor)) 0) :=
  C4_shape_invariance_in_place (fun _ => 0) (fun w => w) (fun _ => [[1, 2]]) 0 (fun _ => rfl)

/-- C6: the embedded search is a pure function of the initial tensor, the
probe-induced loss function and its gradient function; two runs on equal
inputs return equal results.  The source loop reads no random state, so with
the probe frozen the whole computation is determined by its inputs. -/
theorem C6_determinism (L1 : Tensor → ℚ) (G1 : Tensor → Tensor) (z1 : Tensor)
    (L2 : Tensor → ℚ) (G2 : Tensor → Tensor) (z2 : Tensor)
    (hL : L1 = L2) (hG : G1 = G2) (hz : z1 = z2) :
    gen_counterfactual L1 G1 z1 = gen_counterfactual L2 G2 z2 := by
  rw [hL, hG, hz]

/-- C6 witness: two textually identical runs on a concrete input. -/
theorem C6_determinism_witness :
    gen_counterfactual (fun _ => 0) (fun _ => [[1]]) [[1]] =
      gen_counterfactual (fun _ => 0) (fun _ => [[1]]) [[1]] :=
  C6_determinism (fun _ => 0) (fun _ => [[1]]) [[1]] (fun _ => 0) (fun _ => [[1]]) [[1]]
    rfl rfl rfl

/-- C7: when math.exp overflows on the mean evaluation loss, the trainer
catches the OverflowError and reports perplexity as positive infinity
instead of propagating the error. -/
theorem C7_perplexity_overflow (expFn : ℚ → Except MathError ℚ) (meanLoss : ℚ)
    (h : expFn meanLoss = Except.error MathError.overflow) :
    eval_perplexity expFn meanLoss = Except.ok ⊤ := by
  unfold eval_perplexity
  rw [h]

/-- C7 witness: an exponential that always overflows. -/
theorem C7_perplexity_overflow_witness :
    eval_perplexity (fun _ => Except.error MathError.overflow) 0 = Except.ok ⊤ :=
  C7_perplexity_overflow (fun _ => Except.error MathError.overflow) 0 rfl

/-- C9: the probe's parameter values after a gen_counterfactual call equal
their values before the call: the optimizer is built over the single
variable z_prime, and the only probe mutation in the call is probe.eval(),
which clears the training flag but writes no parameter. -/
theorem C9_probe_params_frozen (P : Type) (L : P → Tensor → ℚ) (G : P → Tensor → Tensor)
    (pr : Probe P) (z : Tensor) :
    (gen_counterfactual_probe L G pr z).1.params = pr.params ∧
    (gen_counterfactual_probe L G pr z).2 =
      gen_counterfactual (L pr.params) (G pr.params) z :=
  ⟨rfl, rfl⟩

/-! The class loop of the counterfactual dataset builder. -/

theorem genXfactsClasses_nil (Ls : ℕ → Tensor → ℚ) (Gs : ℕ → Tensor → Tensor)
    (ids : List ℤ) (mt : ℕ) (z : Tensor) (completed : ℕ) :
    genXfactsClasses Ls Gs ids mt [] z completed = (z, completed, []) := rfl

theorem genXfactsClasses_cons (Ls : ℕ → Tensor → ℚ) (Gs : ℕ → Tensor → Tensor)
    (ids : List ℤ) (mt : ℕ) (c : ℕ) (cs : List ℕ) (z : Tensor) (completed : ℕ) :
    genXfactsClasses Ls Gs ids mt (c :: cs) z completed =
      if mt ≤ completed + 1 then
        ((gen_counterfactual (Ls c) (Gs c) z).z, completed + 1,
          [xfactPairs ids (gen_counterfactual (Ls c) (Gs c) z).z])
      else
        ((genXfactsClasses Ls Gs ids mt cs
            (gen_counterfactual (Ls c) (Gs c) z).z (completed + 1)).1,
         (genXfactsClasses Ls Gs ids mt cs
            (gen_counterfactual (Ls c) (Gs c) z).z (completed + 1)).2.1,
         xfactPairs ids (gen_counterfactual (Ls c) (Gs c) z).z ::
           (genXfactsClasses Ls Gs ids mt cs
             (gen_counterfactual (Ls c) (Gs c) z).z (completed + 1)).2.2) := rfl

/-- With at least three training steps left, the batch processes all three
target classes, and each class's search starts from the tensor the previous
class's search returned: class 0 perturbs the extracted hidden states, class
1 perturbs class 0's output, class 2 perturbs class 1's output. -/
theorem gen_xfacts_example_eq (Ls : ℕ → Tensor → ℚ) (Gs : ℕ → Tensor → Tensor)
    (ids : List ℤ) (hidden : Tensor) (mt : ℕ) (hmt : 3 ≤ mt) :
    gen_xfacts_example Ls Gs ids hidden mt =
      [xfactPairs ids (gen_counterfactual (Ls 0) (Gs 0) hidden).z,
       xfactPairs ids
         (gen_counterfactual (Ls 1) (Gs 1)
           (gen_counterfactual (Ls 0) (Gs 0) hidden).z).z,
       xfactPairs ids
         (gen_counterfactual (Ls 2) (Gs 2)
           (gen_counterfactual (Ls 1) (Gs 1)
             (gen_counterfactual (Ls 0) (Gs 0) hidden).z).z).z] := by
  have h1 : ¬ (mt ≤ 0 + 1) := by omega
  have h2 : ¬ (mt ≤ 0 + 1 + 1) := by omega
  unfold gen_xfacts_example
  rw [genXfactsClasses_cons, if_neg h1, genXfactsClasses_cons, if_neg h2,
    genXfactsClasses_cons]
  by_cases h3 : mt ≤ 0 + 1 + 1 + 1
  · rw [if_pos h3]
  · rw [if_neg h3, genXfactsClasses_nil]

theorem length_eq_of_shape_eq {a b : Tensor} (h : shape a = shape b) :
    a.length = b.length := by
  have h2 := congrArg List.length h
  simpa [shape] using h2

theorem xfactPairs_length (ids : List ℤ) (zp : Tensor) (h : zp.length = ids.length) :
    (xfactPairs ids zp).length = ids.length - 1 := by
  simp [xfactPairs, List.length_zip, List.length_dropLast, List.length_drop, h]

theorem xfactPairs_get (ids : List ℤ) (zp : Tensor) (i : ℕ)
    (hi : i < (xfactPairs ids zp).length) (hz : i < zp.length)
    (hid : i + 1 < ids.length) :
    (xfactPairs ids zp).get ⟨i, hi⟩ = (zp.get ⟨i, hz⟩, ids.get ⟨i + 1, hid⟩) := by
  simp [xfactPairs, List.get_eq_getElem, List.getElem_zip, List.getElem_dropLast,
    List.getElem_drop, Nat.add_comm]

/-- The length and pairing facts for one class's contribution. -/
theorem xfactPairs_spec (ids : List ℤ) (zc : Tensor) (h : zc.length = ids.length) :
    (xfactPairs ids zc).length = ids.length - 1 ∧
    ∃ zc2 : Tensor, zc2.length = ids.length ∧
      ∀ i (hi : i < (xfactPairs ids zc).length) (hz : i < zc2.length)
        (hid : i + 1 < ids.length),
        (xfactPairs ids zc).get ⟨i, hi⟩ = (zc2.get ⟨i, hz⟩, ids.get ⟨i + 1, hid⟩) :=
  ⟨xfactPairs_length ids zc h, zc, h,
    fun i hi hz hid => xfactPairs_get ids zc i hi hz hid⟩

/-- C5: for a processed batch of sequence length L with budget for all three
target classes, the builder emits one pair list per class - three in all -
and each class's list has exactly L - 1 entries, the entry at position i
pairing row i of that class's perturbed tensor with the token originally at
position i + 1. -/
theorem C5_next_token_alignment (Ls : ℕ → Tensor → ℚ) (Gs : ℕ → Tensor → Tensor)
    (ids : List ℤ) (hidden : Tensor) (mt : ℕ)
    (hlen : hidden.length = ids.length)
    (hG : ∀ c w, shape (Gs c w) = shape w)
    (hmt : 3 ≤ mt) :
    (gen_xfacts_example Ls Gs ids hidden mt).length = 3 ∧
    ∀ pl ∈ gen_xfacts_example Ls Gs ids hidden mt,
      pl.length = ids.length - 1 ∧
      ∃ zc : Tensor, zc.length = ids.length ∧
        ∀ i (hi : i < pl.length) (hz : i < zc.length) (hid : i + 1 < ids.length),
          pl.get ⟨i, hi⟩ = (zc.get ⟨i, hz⟩, ids.get ⟨i + 1, hid⟩) := by
  have hs0 : shape (gen_counterfactual (Ls 0) (Gs 0) hidden).z = shape hidden :=
    gen_counterfactual_shape _ _ _ (hG 0)
  have hs1 : shape (gen_counterfactual (Ls 1) (Gs 1)
      (gen_counterfactual (Ls 0) (Gs 0) hidden).z).z = shape hidden :=
    (gen_counterfactual_shape _ _ _ (hG 1)).trans hs0
  have hs2 : shape (gen_counterfactual (Ls 2) (Gs 2)
      (gen_counterfactual (Ls 1) (Gs 1)
        (gen_counterfactual (Ls 0) (Gs 0) hidden).z).z).z = shape hidden :=
    (gen_counterfactual_shape _ _ _ (hG 2)).trans hs1
  rw [gen_xfacts_example_eq Ls Gs ids hidden mt hmt]
  refine ⟨rfl, ?_⟩
  intro pl hpl
  simp only [List.mem_cons, List.not_mem_nil, or_false] at hpl
  rcases hpl with h | h | h <;> rw [h]
  · exact xfactPairs_spec ids _ ((length_eq_of_shape_eq hs0).trans hlen)
  · exact xfactPairs_spec ids _ ((length_eq_of_shape_eq hs1).trans hlen)
  · exact xfactPairs_spec ids _ ((length_eq_of_shape_eq hs2).trans hlen)

/-- C5 witness: a concrete batch with two tokens, three classes, identity
gradients and a constant-loss probe. -/
theorem C5_next_token_alignment_witness :
    (gen_xfacts_example (fun _ _ => 0) (fun _ w => w) [5, 7] [[1], [2]] 3).length = 3 ∧
    ∀ pl ∈ gen_xfacts_example (fun _ _ => 0) (fun _ w => w) [5, 7] [[1], [2]] 3,
      pl.length = ([5, 7] : List ℤ).length - 1 ∧
      ∃ zc : Tensor, zc.length = ([5, 7] : List ℤ).length ∧
        ∀ i (hi : i < pl.length) (hz : i < zc.length)
          (hid : i + 1 < ([5, 7] : List ℤ).length),
          pl.get ⟨i, hi⟩ = (zc.get ⟨i, hz⟩, ([5, 7] : List ℤ).get ⟨i + 1, hid⟩) :=
  C5_next_token_alignment (fun _ _ => 0) (fun _ w => w) [5, 7] [[1], [2]] 3 rfl
    (fun _ _ => rfl) (by norm_num)

/-- C10: the builder hands the same hidden-state tensor to all three class
searches without copying between calls: with budget for all classes, its
output is three pair lists in which class 0's pairs are built from the
search output on the extracted hidden states, class 1's pairs from the
search output on class 0's already-perturbed tensor, and class 2's pairs
from the search output on class 1's already-perturbed tensor - every class
after the first starts from the tensor the previous class mutated in place,
not from the originally extracted hidden states. -/
theorem C10_hidden_state_threading (Ls : ℕ → Tensor → ℚ) (Gs : ℕ → Tensor → Tensor)
    (ids : List ℤ) (hidden : Tensor) (mt : ℕ) (hmt : 3 ≤ mt) :
    gen_xfacts_example Ls Gs ids hidden mt =
      [xfactPairs ids (gen_counterfactual (Ls 0) (Gs 0) hidden).z,
       xfactPairs ids
         (gen_counterfactual (Ls 1) (Gs 1)
           (gen_counterfactual (Ls 0) (Gs 0) hidden).z).z,
       xfactPairs ids
         (gen_counterfactual (Ls 2) (Gs 2)
           (gen_counterfactual (Ls 1) (Gs 1)
             (gen_counterfactual (Ls 0) (Gs 0) hidden).z).z).z] :=
  gen_xfacts_example_eq Ls Gs ids hidden mt hmt

/-- C10 witness: the threading equation at a concrete batch. -/
theorem C10_hidden_state_threading_witness :
    gen_xfacts_example (fun _ _ => 0) (fun _ w => w) [5, 7] [[1], [2]] 3 =
      [xfactPairs [5, 7]
         (gen_counterfactual ((fun _ (_ : Tensor) => (0 : ℚ)) 0)
           ((fun _ (w : Tensor) => w) 0) [[1], [2]]).z,
       xfactPairs [5, 7]
         (gen_counterfactual ((fun _ (_ : Tensor) => (0 : ℚ)) 1)
           ((fun _ (w : Tensor) => w) 1)
           (gen_counterfactual ((fun _ (_ : Tensor) => (0 : ℚ)) 0)
             ((fun _ (w : Tensor) => w) 0) [[1], [2]]).z).z,
       xfactPairs [5, 7]
         (gen_counterfactual ((fun _ (_ : Tensor) => (0 : ℚ)) 2)
           ((fun _ (w : Tensor) => w) 2)
           (gen_counterfactual ((fun _ (_ : Tensor) => (0 : ℚ)) 1)
             ((fun _ (w : Tensor) => w) 1)
             (gen_counterfactual ((fun _ (_ : Tensor) => (0 : ℚ)) 0)
               ((fun _ (w : Tensor) => w) 0) [[1], [2]]).z).z).z] :=
  C10_hidden_state_threading (fun _ _ => 0) (fun _ w => w) [5, 7] [[1], [2]] 3
    (by norm_num)

/-! group_texts from the language-model trainer. -/

/-- C8 counterexample: the claim as stated is false on the code.  With
block_size = 4 and a single tokenized sequence of two tokens, the total
concatenated length (2) is below one block, yet group_texts emits that short
sequence as a single chunk of length 2 instead of dropping it: not every
emitted block has length block_size, and the trailing remainder is not
dropped. -/
theorem C8_counterexample :
    (group_texts 4 [[1, 2]]).1 = [[1, 2]] ∧
    ¬ ∀ ch ∈ (group_texts 4 [[1, 2]]).1, ch.length = 4 := by
  refine ⟨rfl, ?_⟩
  decide

/-- C8 (amended): for a positive block size, group_texts concatenates all
token sequences; when the total concatenated length is at least block_size
it re-chunks into exactly total / block_size blocks of exactly block_size
tokens each, dropping the trailing remainder; when the total is shorter than
one block, the entire (possibly empty) concatenated sequence is emitted as a
single shorter block rather than dropped (no block when it is empty); and
the labels column is a copy of the input_ids chunks. -/
theorem C8_group_texts (bs : ℕ) (xs : List (List ℤ)) (hbs : 0 < bs) :
    (group_texts bs xs).2 = (group_texts bs xs).1 ∧
    (bs ≤ xs.flatten.length →
      (group_texts bs xs).1.length = xs.flatten.length / bs ∧
      ∀ ch ∈ (group_texts bs xs).1, ch.length = bs) ∧
    (xs.flatten.length < bs →
      (group_texts bs xs).1 = if xs.flatten.length = 0 then [] else [xs.flatten]) := by
  refine ⟨rfl, ?_, ?_⟩
  · intro hge
    have hsel : (if bs ≤ xs.flatten.length then xs.flatten.length / bs * bs
        else xs.flatten.length) = xs.flatten.length / bs * bs := if_pos hge
    have hcount : ∀ q : ℕ, (q * bs + bs - 1) / bs = q := by
      intro q
      have h1 : q * bs + bs - 1 = bs * q + (bs - 1) := by
        have h2 := Nat.mul_comm q bs
        omega
      rw [h1, Nat.mul_add_div hbs, Nat.div_eq_of_lt (by omega), Nat.add_zero]
    constructor
    · simp only [group_texts, hsel, List.length_map, List.length_range]
      exact hcount _
    · intro ch hch
      simp only [group_texts, hsel, List.mem_map, List.mem_range, hcount] at hch
      obtain ⟨j, hj, rfl⟩ := hch
      have h1 : (j + 1) * bs ≤ xs.flatten.length / bs * bs :=
        Nat.mul_le_mul_right bs (by omega)
      have h2 : xs.flatten.length / bs * bs ≤ xs.flatten.length :=
        Nat.div_mul_le_self _ _
      have h3 : (j + 1) * bs = j * bs + bs := by ring
      simp only [List.length_take, List.length_drop]
      omega
  · intro hlt
    have hsel : (if bs ≤ xs.flatten.length then xs.flatten.length / bs * bs
        else xs.flatten.length) = xs.flatten.length := if_neg (by omega)
    by_cases hn : xs.flatten.length = 0
    · have hcount : (xs.flatten.length + bs - 1) / bs = 0 :=
        Nat.div_eq_of_lt (by omega)
      simp only [group_texts, hsel, hcount, List.range_zero, List.map_nil, if_pos hn]
    · have ha : 1 ≤ (xs.flatten.length + bs - 1) / bs :=
        (Nat.le_div_iff_mul_le hbs).mpr (by omega)
      have hb : (xs.flatten.length + bs - 1) / bs < 2 :=
        (Nat.div_lt_iff_lt_mul hbs).mpr (by omega)
      have hcount : (xs.flatten.length + bs - 1) / bs = 1 := by omega
      have htake : xs.flatten.take bs = xs.flatten :=
        List.take_of_length_le (le_of_lt hlt)
      simp only [group_texts, hsel, hcount, if_neg hn]
      rw [show List.range 1 = [0] from rfl]
      simp only [List.map_cons, List.map_nil, Nat.zero_mul, List.drop_zero, htake]

/-- C8 witness: block size 4 over a five-token sequence gives one full block
of four tokens, dropping the fifth. -/
theorem C8_group_texts_witness :
    (group_texts 4 [[1, 2, 3, 4, 5]]).2 = (group_texts 4 [[1, 2, 3, 4, 5]]).1 ∧
    (group_texts 4 [[1, 2, 3, 4, 5]]).1.length =
      ([[1, 2, 3, 4, 5]] : List (List ℤ)).flatten.length / 4 ∧
    ∀ ch ∈ (group_texts 4 [[1, 2, 3, 4, 5]]).1, ch.length = 4 :=
  ⟨(C8_group_texts 4 [[1, 2, 3, 4, 5]] (by norm_num)).1,
   ((C8_group_texts 4 [[1, 2, 3, 4, 5]] (by norm_num)).2.1 (by decide)).1,
   ((C8_group_texts 4 [[1, 2, 3, 4, 5]] (by norm_num)).2.1 (by decide)).2⟩

end XFactuals
